import Mathlib

/-!
# Verification of the Yori hex-edit control (`libwin/hexedit.c`)

This file gives a shallow embedding of the buffer, coordinate and selection
logic of the `YORI_WIN_CTRL_HEX_EDIT` control and proves properties of the
embedded operations.

Modelling conventions:

* `DWORD` (32-bit) values are `Nat`s reduced with `% 2^32` at the points where
  the C code performs a narrowing cast; `(DWORD)-1` is `2^32 - 1`.
* `DWORDLONG` (64-bit) arithmetic is `Nat` arithmetic reduced with `% 2^64`
  where the C computation can wrap.
* The byte buffer is modelled as a total function `Nat → Nat` (a byte tape)
  together with the `bufferAllocated` / `bufferValid` counts and a `hasBuffer`
  flag standing for `Buffer != NULL`.  Bytes of freshly allocated storage
  that the C code leaves uninitialised are modelled as 0; no theorem below
  inspects a byte that the C code leaves uninitialised.
* Allocation success of `YoriLibReferencedMalloc` / `YoriLibAllocateString`
  is an explicit `Bool` argument (`allocOk`) threaded through the operations;
  within one modelled operation every allocation attempt shares this outcome.
* Screen rendering, scroll-bar updates and the cursor-move callback are
  framework side effects outside this control's state; `paintState` models
  exactly the state updates `YoriWinHexEditPaint` performs on the control
  (consuming the dirty range and recording cursor visibility).
-/

namespace HexEditModel

/-- `(DWORD)x`: truncation of a value to 32 bits. -/
def dword (n : Nat) : Nat := n % 2 ^ 32

/-- The value `(DWORD)-1`, used by the code as "last line" sentinel. -/
def DWORD_MAX : Nat := 2 ^ 32 - 1

/-- 64-bit subtraction `a - b` as the C `DWORDLONG` difference (wraps). -/
def sub64 (a b : Nat) : Nat := (a + 2 ^ 64 - b % 2 ^ 64) % 2 ^ 64

/-- A 64-bit `DWORDLONG` value: arithmetic results wrap modulo `2 ^ 64`. -/
def qword (n : Nat) : Nat := n % 2 ^ 64

/-- The meanings a display cell can have (`YORI_WIN_HEX_EDIT_CELL_TYPE`). -/
inductive CellKind where
  | offset
  | whitespace
  | hexDigit
  | charValue
deriving DecidableEq, Repr

/-- State of the control: the fields of `YORI_WIN_CTRL_HEX_EDIT` that the
buffer, coordinate, selection and dirty-range logic read or write. -/
structure HexEdit where
  /-- Byte tape standing for the `Buffer` allocation. -/
  buffer : Nat → Nat
  /-- `Buffer != NULL`. -/
  hasBuffer : Bool
  bufferAllocated : Nat
  bufferValid : Nat
  bytesPerLine : Nat
  bytesPerWord : Nat
  /-- 0, 32 or 64. -/
  offsetWidth : Nat
  selectionActive : Bool
  selectionFirst : Nat
  selectionLast : Nat
  firstDirtyLine : Nat
  lastDirtyLine : Nat
  cursorLine : Nat
  cursorOffset : Nat
  viewportTop : Nat
  viewportLeft : Nat
  clientSizeX : Nat
  clientSizeY : Nat
  userModified : Bool
  insertMode : Bool
  caption : List Nat
  captionAllocated : Nat

/-- `YoriWinHexEditLinesPopulated`: number of display lines needed for the
valid data, rounding partial lines up, cast to `DWORD`. -/
def linesPopulated (h : HexEdit) : Nat :=
  dword ((h.bufferValid + h.bytesPerLine - 1) / h.bytesPerLine)

/-- `YoriWinHexEditOffsetSizeInCells`: width of the offset column. -/
def offsetSizeInCells (h : HexEdit) : Nat :=
  if h.offsetWidth = 64 then 18
  else if h.offsetWidth = 32 then 9
  else 0

/-- `YoriWinHexEditGetCellsPerWord`: display cells per word, including the
trailing separator and the extra mid-word separator for 8-byte words. -/
def getCellsPerWord (h : HexEdit) : Nat :=
  let cellsPerWord := h.bytesPerWord * 2 + 1
  if h.bytesPerWord = 8 then cellsPerWord + 1 else cellsPerWord

/-- `YoriWinHexEditGetCellIndexForBitShift`: cell offset from the right edge
of a word for a given bit shift, skipping the mid-word separator. -/
def getCellIndexForBitShift (h : HexEdit) (bitShift : Nat) : Nat :=
  let cellIndex := bitShift / 4
  if bitShift ≥ 32 then cellIndex + 1 else cellIndex

/-- Result of classifying a display cell: the cell kind plus the three output
parameters of `YoriWinHexEditCellType` (which the C code zero-initialises). -/
structure CellInfo where
  kind : CellKind
  byteOffset : Nat
  bitShift : Nat
  beyondBufferEnd : Bool
deriving DecidableEq, Repr

/-- `YoriWinHexEditCellType`: meaning of the display cell `(lineIndex,
cellOffset)`. -/
def cellType (h : HexEdit) (lineIndex cellOffset : Nat) : CellInfo :=
  let lines := linesPopulated h
  let bytesThisLine :=
    if lineIndex + 1 = lines then
      dword (sub64 h.bufferValid (lineIndex * h.bytesPerLine))
    else h.bytesPerLine
  let offsetInChars := offsetSizeInCells h
  if offsetInChars > 0 ∧ cellOffset < offsetInChars then
    ⟨CellKind.offset, 0, 0, false⟩
  else if offsetInChars > 0 ∧ cellOffset = offsetInChars then
    ⟨CellKind.whitespace, 0, 0, false⟩
  else
    let cellsPerWord := getCellsPerWord h
    let wordsPerLine := h.bytesPerLine / h.bytesPerWord
    let dataOffset :=
      if offsetInChars = 0 then cellOffset - offsetInChars + 1
      else cellOffset - offsetInChars
    if dataOffset < wordsPerLine * cellsPerWord then
      let modValue := dataOffset % cellsPerWord
      let localByteOffset := dataOffset / cellsPerWord * h.bytesPerWord
      if modValue = 0 then
        ⟨CellKind.whitespace, 0, 0, false⟩
      else
        let modValue2 := cellsPerWord - 1 - modValue
        if modValue2 = 8 then
          ⟨CellKind.whitespace, 0, 0, false⟩
        else
          let modValue3 := if modValue2 > 8 then modValue2 - 1 else modValue2
          let localBitShift := 4 * modValue3
          let beyond :=
            decide (lineIndex ≥ lines) ||
              decide (localByteOffset + localBitShift / 8 ≥ bytesThisLine)
          ⟨CellKind.hexDigit, localByteOffset, localBitShift, beyond⟩
    else
      let dataOffset2 := dataOffset - wordsPerLine * cellsPerWord
      if dataOffset2 < 2 then
        ⟨CellKind.whitespace, 0, 0, false⟩
      else
        let dataOffset3 := dataOffset2 - 2
        if dataOffset3 ≥ h.bytesPerLine then
          ⟨CellKind.whitespace, 0, 0, false⟩
        else
          let beyond :=
            decide (lineIndex ≥ lines) || decide (dataOffset3 ≥ bytesThisLine)
          ⟨CellKind.charValue, dataOffset3, 0, beyond⟩

/-- `YoriWinHexEditCellFromCharBufferOffset`: display cell of a buffer offset
in the character region.  Returns `(line, column)`. -/
def cellFromCharBufferOffset (h : HexEdit) (bufferOffset : Nat) : Nat × Nat :=
  let offsetInChars := offsetSizeInCells h
  let offsetInChars := if offsetInChars > 0 then offsetInChars + 1 else offsetInChars
  let cellsPerWord := getCellsPerWord h
  let wordsPerLine := h.bytesPerLine / h.bytesPerWord
  let endLine := dword (bufferOffset / h.bytesPerLine)
  let lineByteOffset := dword (bufferOffset % h.bytesPerLine)
  (endLine, offsetInChars + wordsPerLine * cellsPerWord + 1 + lineByteOffset)

/-- `YoriWinHexEditCellFromHexBufferOffset`: display cell of a (word-aligned)
buffer offset and bit shift in the hex region.  Returns `(line, column)`. -/
def cellFromHexBufferOffset (h : HexEdit) (bufferOffset bitShift : Nat) :
    Nat × Nat :=
  let offsetInChars := offsetSizeInCells h
  let marginToRemove := if offsetInChars = 0 then 1 else 0
  let cellsPerWord := getCellsPerWord h
  let endLine := dword (bufferOffset / h.bytesPerLine)
  let lineByteOffset := dword (bufferOffset % h.bytesPerLine)
  let lineCellOffset := (lineByteOffset + h.bytesPerWord - 1) / h.bytesPerWord
  let bitShiftCellIndex := getCellIndexForBitShift h bitShift
  (endLine,
    offsetInChars + (lineCellOffset + 1) * cellsPerWord - bitShiftCellIndex -
      marginToRemove - 1)

/-- `YoriWinHexEditNextCellSameType`: display cell one nibble (hex region) or
one byte (character region) after the given buffer location.  `none` models
the `FALSE` return for non-editable cell kinds (outputs untouched). -/
def nextCellSameType (h : HexEdit) (kind : CellKind) (bufferOffset bitShift : Nat) :
    Option (Nat × Nat) :=
  if kind ≠ CellKind.hexDigit ∧ kind ≠ CellKind.charValue then
    none
  else if kind = CellKind.charValue then
    some (cellFromCharBufferOffset h (bufferOffset + 1))
  else
    let unaligned := dword (bufferOffset % h.bytesPerWord)
    let newBufferOffset :=
      if unaligned ≠ 0 then bufferOffset - unaligned else bufferOffset
    let newBitShift :=
      if unaligned ≠ 0 then bitShift + 8 * unaligned else bitShift
    if newBitShift ≥ 4 then
      some (cellFromHexBufferOffset h newBufferOffset (newBitShift - 4))
    else
      some (cellFromHexBufferOffset h (bufferOffset + h.bytesPerWord)
        (8 * h.bytesPerWord - 4))

/-- `YoriWinHexEditPreviousCellSameType`: display cell one nibble or one byte
before the given buffer location. -/
def previousCellSameType (h : HexEdit) (kind : CellKind)
    (bufferOffset bitShift : Nat) : Option (Nat × Nat) :=
  if kind ≠ CellKind.hexDigit ∧ kind ≠ CellKind.charValue then
    none
  else if kind = CellKind.charValue then
    some (cellFromCharBufferOffset h (bufferOffset - 1))
  else
    let unaligned := dword (bufferOffset % h.bytesPerWord)
    let newBufferOffset :=
      if unaligned ≠ 0 then bufferOffset - unaligned else bufferOffset
    let newBitShift :=
      if unaligned ≠ 0 then bitShift + 8 * unaligned else bitShift
    if newBitShift < h.bytesPerWord * 8 - 4 then
      some (cellFromHexBufferOffset h newBufferOffset (newBitShift + 4))
    else if newBufferOffset > 0 then
      some (cellFromHexBufferOffset h (newBufferOffset - h.bytesPerWord) 0)
    else
      some (cellFromHexBufferOffset h newBufferOffset newBitShift)

/-- `YoriWinHexEditExpandDirtyRange`: extend (never shrink) the dirty line
range. -/
def expandDirtyRange (h : HexEdit) (newFirst newLast : Nat) : HexEdit :=
  let h := if newFirst < h.firstDirtyLine then { h with firstDirtyLine := newFirst } else h
  if newLast > h.lastDirtyLine then { h with lastDirtyLine := newLast } else h

/-- The state updates of `YoriWinHexEditPaint`: repaint consumes the dirty
range (resetting it to the empty sentinel) when it is non-empty.  The screen
writes themselves go to the console and are not part of control state. -/
def paintState (h : HexEdit) : HexEdit :=
  if h.firstDirtyLine ≤ h.lastDirtyLine then
    { h with firstDirtyLine := DWORD_MAX, lastDirtyLine := 0 }
  else h

/-- `YoriWinHexEditSetCursorLocationInternal`: move the cursor (the optional
cursor-move callback is a notification to the host, not control state). -/
def setCursorLocationInternal (h : HexEdit) (newCursorOffset newCursorLine : Nat) :
    HexEdit :=
  if newCursorOffset = h.cursorOffset ∧ newCursorLine = h.cursorLine then h
  else { h with cursorOffset := newCursorOffset, cursorLine := newCursorLine }

/-- `YoriWinHexEditEnsureCursorVisible`: adjust the viewport so the cursor
cell lies inside the client area, dirtying revealed lines. -/
def ensureCursorVisible (h : HexEdit) : HexEdit :=
  let newViewportLeft :=
    if h.cursorOffset < h.viewportLeft then h.cursorOffset
    else if h.cursorOffset ≥ h.viewportLeft + h.clientSizeX then
      h.cursorOffset - h.clientSizeX + 1
    else h.viewportLeft
  let newViewportTop :=
    if h.cursorLine < h.viewportTop then h.cursorLine
    else if h.cursorLine ≥ h.viewportTop + h.clientSizeY then
      h.cursorLine - h.clientSizeY + 1
    else h.viewportTop
  let h1 :=
    if newViewportTop ≠ h.viewportTop then
      expandDirtyRange { h with viewportTop := newViewportTop }
        newViewportTop DWORD_MAX
    else h
  if newViewportLeft ≠ h1.viewportLeft then
    expandDirtyRange { h1 with viewportLeft := newViewportLeft }
      newViewportTop DWORD_MAX
  else h1

/-- `YoriWinHexEditSetCursorToBufferLocation`: place the cursor on the display
cell of the given buffer location, scrolling and repainting if it moved. -/
def setCursorToBufferLocation (h : HexEdit) (kind : CellKind)
    (bufferOffset bitShift : Nat) : Bool × HexEdit :=
  let cell :=
    if kind = CellKind.hexDigit then cellFromHexBufferOffset h bufferOffset bitShift
    else cellFromCharBufferOffset h bufferOffset
  if cell.1 ≠ h.cursorLine ∨ cell.2 ≠ h.cursorOffset then
    (true, paintState (ensureCursorVisible
      (setCursorLocationInternal h cell.2 cell.1)))
  else (false, h)

/-- `YoriWinHexEditSetCursorLocationToZero`: cursor to the first hex digit of
the buffer. -/
def setCursorLocationToZero (h : HexEdit) : Bool × HexEdit :=
  setCursorToBufferLocation h CellKind.hexDigit 0 (h.bytesPerWord * 8 - 4)

/-- `YoriWinHexEditInputCharToByte`: truncate an input character to a byte. -/
def inputCharToByte (c : Nat) : Nat := c % 2 ^ 8

/-- Modelled from the spec: `YoriLibUpcaseChar` (defined in `lib/`, outside
the sources at hand) converts a lower-case letter to upper case so hex digit
input is case-insensitive. -/
def upcaseChar (c : Nat) : Nat :=
  if 97 ≤ c ∧ c ≤ 122 then c - 32 else c

/-- `YoriWinHexEditEnsureBufferLength`: ensure the allocation can hold
`newBufferLength` bytes, growing by a 16384-byte chunk when it cannot.
`allocOk` models success of `YoriLibReferencedMalloc`.  Returns
`(success, state)`. -/
def ensureBufferLength (h : HexEdit) (newBufferLength : Nat) (allocOk : Bool) :
    Bool × HexEdit :=
  if h.bufferAllocated ≥ newBufferLength then (true, h)
  else if newBufferLength < h.bufferValid then (false, h)
  else
    let paddedBufferLength := (newBufferLength + 16384) % 2 ^ 64
    if paddedBufferLength ≥ DWORD_MAX then (false, h)
    else if allocOk then
      (true,
        { h with
          buffer := fun i => if i < h.bufferValid then h.buffer i else 0,
          hasBuffer := true,
          bufferAllocated := paddedBufferLength })
    else (false, h)

/-- `YoriWinHexEditEnsureBufferValid`: make bytes up to `newBufferLength`
valid, zero-filling the newly valid range. -/
def ensureBufferValid (h : HexEdit) (newBufferLength : Nat) (allocOk : Bool) :
    Bool × HexEdit :=
  if newBufferLength ≤ h.bufferValid then (true, h)
  else
    let r := ensureBufferLength h newBufferLength allocOk
    if r.1 then
      let h1 := r.2
      (true,
        { h1 with
          buffer := fun i =>
            if h1.bufferValid ≤ i ∧ i < newBufferLength then 0 else h1.buffer i,
          bufferValid := newBufferLength })
    else (false, r.2)

/-- `YoriWinHexEditInsertSpaceInBuffer`: open a zero-filled gap of
`bytesToInsert` bytes at `bufferOffset`, shifting the valid bytes above it. -/
def insertSpaceInBuffer (h : HexEdit) (bufferOffset bytesToInsert : Nat)
    (allocOk : Bool) : Bool × HexEdit :=
  if bufferOffset > h.bufferValid then (false, h)
  else
    let r := ensureBufferLength h (h.bufferValid + bytesToInsert) allocOk
    if r.1 then
      let h1 := r.2
      let bytesToMove := h1.bufferValid - bufferOffset
      if bytesToMove > DWORD_MAX then (false, h1)
      else
        (true,
          { h1 with
            buffer := fun i =>
              if i < bufferOffset then h1.buffer i
              else if i < bufferOffset + bytesToInsert then 0
              else if i < h1.bufferValid + bytesToInsert then
                h1.buffer (i - bytesToInsert)
              else h1.buffer i,
            bufferValid := h1.bufferValid + bytesToInsert })
    else (false, r.2)

/-- Decode an (upper-cased) byte as a hex digit value, `none` when the byte is
not a hex digit.  Mirrors the `'0'..'9'` / `'A'..'F'` tests in the cell
editors. -/
def hexDigitValue (c : Nat) : Option Nat :=
  if 48 ≤ c ∧ c ≤ 57 then some (c - 48)
  else if 65 ≤ c ∧ c ≤ 70 then some (c - 65 + 10)
  else none

/-- Write `nibble` into the nibble of byte `editOff` selected by `editShift`
(the `BitMask` update shared by the cell editors). -/
def writeNibble (h : HexEdit) (editOff editShift nibble : Nat) : HexEdit :=
  let bitMask := 15 * 2 ^ editShift % 2 ^ 8
  let oldByte := h.buffer editOff % 2 ^ 8
  let newByte := (oldByte &&& (255 - bitMask)) ||| nibble * 2 ^ editShift % 2 ^ 8
  { h with buffer := fun i => if i = editOff then newByte else h.buffer i }

/-- Result of a cell-edit operation: final state, output cursor cell
(`LastLine`, `LastCharOffset`) and the `BOOLEAN` return value. -/
structure EditResult where
  state : HexEdit
  lastLine : Nat
  lastCharOffset : Nat
  ret : Bool

/-- `YoriWinHexEditInsertCell`: insert-mode edit of the display cell
`(firstLine, firstCharOffset)` with input character `ch`. -/
def insertCell (h : HexEdit) (firstLine firstCharOffset ch : Nat)
    (allocOk : Bool) : EditResult :=
  let info := cellType h firstLine firstCharOffset
  let bufferOffset := firstLine * h.bytesPerLine + info.byteOffset
  let dirtyLastLine := firstLine
  let afterEnsure : Option (HexEdit × Nat) :=
    if info.beyondBufferEnd then
      if bufferOffset > h.bufferValid then
        let r := ensureBufferValid h bufferOffset allocOk
        if r.1 then some (r.2, DWORD_MAX) else none
      else some (h, DWORD_MAX)
    else some (h, dirtyLastLine)
  match afterEnsure with
  | none => ⟨h, firstLine, firstCharOffset, true⟩
  | some (h0, dirty0) =>
    let editBufferOffset :=
      if info.bitShift ≥ 8 then bufferOffset + info.bitShift / 8 else bufferOffset
    let editBitShift := if info.bitShift ≥ 8 then info.bitShift % 8 else info.bitShift
    let inputChar := inputCharToByte ch
    let step : Option (HexEdit × Nat) :=
      match info.kind with
      | CellKind.offset => none
      | CellKind.whitespace => none
      | CellKind.hexDigit =>
        match hexDigitValue (upcaseChar inputChar) with
        | none => none
        | some newNibble =>
          if info.bitShift = h0.bytesPerWord * 8 - 4 then
            let r := insertSpaceInBuffer h0 bufferOffset h0.bytesPerWord allocOk
            if r.1 then
              some (writeNibble r.2 editBufferOffset editBitShift newNibble,
                DWORD_MAX)
            else none
          else
            some (writeNibble h0 editBufferOffset editBitShift newNibble, dirty0)
      | CellKind.charValue =>
        let r := insertSpaceInBuffer h0 editBufferOffset 1 allocOk
        if r.1 then
          some ({ r.2 with
            buffer := fun i =>
              if i = editBufferOffset then inputChar else r.2.buffer i },
            DWORD_MAX)
        else none
    match step with
    | none =>
      let h2 := expandDirtyRange h0 firstLine dirty0
      ⟨h2, firstLine, firstCharOffset, true⟩
    | some (h1, dirty1) =>
      let next := (nextCellSameType h1 info.kind bufferOffset info.bitShift).getD
        (firstLine, firstCharOffset)
      let h2 := expandDirtyRange { h1 with userModified := true } firstLine dirty1
      ⟨h2, next.1, next.2, true⟩

/-- `YoriWinHexEditOverwriteCell`: overwrite-mode edit of the display cell
`(firstLine, firstCharOffset)` with input character `ch`. -/
def overwriteCell (h : HexEdit) (firstLine firstCharOffset ch : Nat)
    (allocOk : Bool) : EditResult :=
  let info := cellType h firstLine firstCharOffset
  let bufferOffset := firstLine * h.bytesPerLine + info.byteOffset
  let editBufferOffset :=
    if info.bitShift ≥ 8 then bufferOffset + info.bitShift / 8 else bufferOffset
  let editBitShift := if info.bitShift ≥ 8 then info.bitShift % 8 else info.bitShift
  let inputChar := inputCharToByte ch
  match info.kind with
  | CellKind.offset => ⟨h, firstLine, firstCharOffset, true⟩
  | CellKind.whitespace => ⟨h, firstLine, firstCharOffset, true⟩
  | CellKind.hexDigit =>
    match hexDigitValue (upcaseChar inputChar) with
    | none => ⟨h, firstLine, firstCharOffset, true⟩
    | some newNibble =>
      let ensured : Option HexEdit :=
        if info.beyondBufferEnd then
          let r := ensureBufferValid h (editBufferOffset + 1) allocOk
          if r.1 then some r.2 else none
        else some h
      match ensured with
      | none => ⟨h, firstLine, firstCharOffset, true⟩
      | some h0 =>
        let h1 := writeNibble h0 editBufferOffset editBitShift newNibble
        let next := (nextCellSameType h1 info.kind bufferOffset info.bitShift).getD
          (firstLine, firstCharOffset)
        let h2 := expandDirtyRange { h1 with userModified := true }
          firstLine next.1
        ⟨h2, next.1, next.2, true⟩
  | CellKind.charValue =>
    let ensured : Option HexEdit :=
      if info.beyondBufferEnd then
        let r := ensureBufferValid h (editBufferOffset + 1) allocOk
        if r.1 then some r.2 else none
      else some h
    match ensured with
    | none => ⟨h, firstLine, firstCharOffset, true⟩
    | some h0 =>
      let h1 := { h0 with
        buffer := fun i => if i = editBufferOffset then inputChar else h0.buffer i }
      let next := (nextCellSameType h1 info.kind bufferOffset info.bitShift).getD
        (firstLine, firstCharOffset)
      let h2 := expandDirtyRange { h1 with userModified := true }
        firstLine next.1
      ⟨h2, next.1, next.2, true⟩

/-- `YoriWinHexEditClearSelection`: deactivate the selection, dirtying the
lines it covered. -/
def clearSelection (h : HexEdit) : HexEdit :=
  if h.selectionActive = false then h
  else
    let firstDirtyLine := dword (h.selectionFirst / h.bytesPerLine)
    let lastDirtyLine := dword (h.selectionLast / h.bytesPerLine)
    expandDirtyRange { h with selectionActive := false } firstDirtyLine lastDirtyLine

/-- `YoriWinHexEditSetSelectionRange`: select the inclusive byte range
`[firstByteOffset, lastByteOffset]`. -/
def setSelectionRange (h : HexEdit) (firstByteOffset lastByteOffset : Nat) :
    Bool × HexEdit :=
  let h1 := clearSelection h
  let h2 := { h1 with selectionActive := true }
  if firstByteOffset ≥ h2.bufferValid ∨ lastByteOffset ≥ h2.bufferValid then
    (false, h2)
  else
    let h3 := { h2 with
      selectionFirst := firstByteOffset, selectionLast := lastByteOffset }
    let h4 := expandDirtyRange h3 (dword (h3.selectionFirst / h3.bytesPerLine))
      (dword (h3.selectionLast / h3.bytesPerLine))
    (true, paintState h4)

/-- `YoriWinHexEditSelectionActive`. -/
def selectionActiveApi (h : HexEdit) : Bool := h.selectionActive

/-- `YoriWinHexEditClear`: release the buffer and reset the view. -/
def clearCtrl (h : HexEdit) : Bool × HexEdit :=
  let h1 := { h with
    buffer := fun _ => 0, hasBuffer := false,
    bufferAllocated := 0, bufferValid := 0,
    viewportTop := 0, viewportLeft := 0 }
  let h2 := expandDirtyRange h1 h1.viewportTop DWORD_MAX
  let h3 := (setCursorLocationToZero h2).2
  (true, paintState h3)

/-- `YoriWinHexEditSetCaption`: replace the caption text, growing its
allocation when needed.  `allocOk` models `YoriLibAllocateString` success. -/
def setCaption (h : HexEdit) (caption : List Nat) (allocOk : Bool) :
    Bool × HexEdit :=
  if h.captionAllocated < caption.length then
    if allocOk then
      (true, { h with caption := caption, captionAllocated := caption.length })
    else (false, h)
  else
    (true, { h with caption := caption })

/-- `YoriWinHexEditGetDataNoCopy`: hand out the live buffer (a referenced
pointer, `none` when `Buffer` is NULL) and the valid length. -/
def getDataNoCopy (h : HexEdit) : Bool × Option (Nat → Nat) × Nat :=
  (true, if h.hasBuffer then some h.buffer else none, h.bufferValid)

/-- `YoriWinHexEditSetDataNoCopy`: adopt an externally allocated buffer. -/
def setDataNoCopy (h : HexEdit) (newBuffer : Nat → Nat)
    (newBufferAllocated newBufferValid : Nat) : Bool × HexEdit :=
  let h1 := { h with
    buffer := newBuffer, hasBuffer := true,
    bufferAllocated := newBufferAllocated, bufferValid := newBufferValid }
  (true, paintState (expandDirtyRange h1 0 DWORD_MAX))

/-- `YoriWinHexEditDeleteData`: remove `length` bytes at `dataOffset`,
clamping the count to the valid range.  All sums and differences of the
`DWORDLONG` arguments wrap modulo `2 ^ 64`, and the `memmove` count is
truncated to 32 bits, exactly as in the source. -/
def deleteData (h : HexEdit) (dataOffset length : Nat) : Bool × HexEdit :=
  if dataOffset ≥ h.bufferValid then (false, h)
  else
    let lengthToRemove :=
      if qword (dataOffset + length) > h.bufferValid then h.bufferValid - dataOffset
      else length
    let h1 :=
      if h.bufferValid > qword (dataOffset + lengthToRemove) then
        { h with buffer := fun i =>
            (if dataOffset ≤ i ∧
                i < dataOffset +
                  dword (sub64 (sub64 h.bufferValid dataOffset) lengthToRemove) then
              h.buffer (qword (dataOffset + lengthToRemove) + (i - dataOffset))
            else h.buffer i) }
      else h
    let h2 := { h1 with bufferValid := sub64 h1.bufferValid lengthToRemove }
    (true, expandDirtyRange h2 (dword (dataOffset / h.bytesPerLine)) DWORD_MAX)

/-- `YoriWinHexEditInsertData`: insert `length` bytes read from `data` at
`dataOffset`. -/
def insertData (h : HexEdit) (dataOffset : Nat) (data : Nat → Nat)
    (length : Nat) (allocOk : Bool) : Bool × HexEdit :=
  if dataOffset ≥ h.bufferValid then (false, h)
  else
    let r := insertSpaceInBuffer h dataOffset (dword length) allocOk
    if r.1 then
      let h1 := r.2
      let h2 := { h1 with buffer := fun i =>
        (if dataOffset ≤ i ∧ i < dataOffset + dword length then data (i - dataOffset)
          else h1.buffer i) }
      (true, expandDirtyRange h2 (dword (dataOffset / h.bytesPerLine)) DWORD_MAX)
    else (false, r.2)

/-- `YoriWinHexEditReplaceData`: overwrite `length` bytes at `dataOffset`
with bytes read from `data`; never extends the buffer.  The guard compares
the `DWORDLONG` sum `dataOffset + length`, which wraps modulo `2 ^ 64`, and
the `memmove` count is `(DWORD)length`, exactly as in the source. -/
def replaceData (h : HexEdit) (dataOffset : Nat) (data : Nat → Nat)
    (length : Nat) : Bool × HexEdit :=
  if qword (dataOffset + length) > h.bufferValid then (false, h)
  else
    let h1 := { h with buffer := fun i =>
      (if dataOffset ≤ i ∧ i < dataOffset + dword length then data (i - dataOffset)
        else h.buffer i) }
    (true, expandDirtyRange h1 (dword (dataOffset / h.bytesPerLine))
      (dword (qword (dataOffset + length) / h.bytesPerLine)))

/-- `YORI_LIB_HEXDUMP_BYTES_PER_LINE`.  The constant lives in `yorilib.h`,
outside the sources at hand; modelled from the spec ("fixed at a constant,
e.g. 16"), matching the 16-byte lines the cell formulas assume. -/
def YORI_LIB_HEXDUMP_BYTES_PER_LINE : Nat := 16

/-- `YoriWinHexEditCreate` after `ZeroMemory`: the initial control state for
a given word width, offset-column width (0/32/64 per style flags), client
size and caption.  Creation ends by homing the cursor, dirtying everything
and painting. -/
def initState (bytesPerWord offsetWidth clientSizeX clientSizeY : Nat)
    (caption : List Nat) : HexEdit :=
  let h0 : HexEdit := {
    buffer := fun _ => 0
    hasBuffer := false
    bufferAllocated := 0
    bufferValid := 0
    bytesPerLine := YORI_LIB_HEXDUMP_BYTES_PER_LINE
    bytesPerWord := bytesPerWord
    offsetWidth := offsetWidth
    selectionActive := false
    selectionFirst := 0
    selectionLast := 0
    firstDirtyLine := 0
    lastDirtyLine := 0
    cursorLine := 0
    cursorOffset := 0
    viewportTop := 0
    viewportLeft := 0
    clientSizeX := clientSizeX
    clientSizeY := clientSizeY
    userModified := false
    insertMode := false
    caption := caption
    captionAllocated := caption.length }
  let h1 := (setCursorLocationToZero h0).2
  paintState (expandDirtyRange h1 0 DWORD_MAX)

/-- The observable content of byte `i`: its value when it is valid, `none`
when it lies beyond the valid length.  Rendering reads exactly this view. -/
def byteAt (h : HexEdit) (i : Nat) : Option Nat :=
  if i < h.bufferValid then some (h.buffer i) else none

/-- Does the cell editor accept `ch` as a hex digit (after byte truncation
and upcasing)? -/
def acceptsHexInput (ch : Nat) : Bool :=
  (hexDigitValue (upcaseChar (inputCharToByte ch))).isSome

/-- Well-formed control state: the configuration produced by
`YoriWinHexEditCreate` (16-byte lines, a supported word width) and the
buffer-store invariant `valid ≤ allocated` with the allocation below the
`(DWORD)-1` ceiling that `YoriWinHexEditEnsureBufferLength` enforces. -/
def Wf (h : HexEdit) : Prop :=
  h.bytesPerLine = 16 ∧
    (h.bytesPerWord = 1 ∨ h.bytesPerWord = 2 ∨ h.bytesPerWord = 4 ∨
      h.bytesPerWord = 8) ∧
    h.bufferValid ≤ h.bufferAllocated ∧ h.bufferAllocated < 2 ^ 32 - 1

instance (h : HexEdit) : Decidable (Wf h) := by
  unfold Wf; infer_instance

/-- A mutating operation executed between two paints (the operations of the
model that write buffer content without painting internally). -/
inductive MutOp where
  | overwriteOp (line col ch : Nat) (allocOk : Bool)
  | insertOp (line col ch : Nat) (allocOk : Bool)
  | insertDataOp (off : Nat) (data : Nat → Nat) (len : Nat) (allocOk : Bool)
  | deleteDataOp (off len : Nat)
  | replaceDataOp (off : Nat) (data : Nat → Nat) (len : Nat)

/-- Apply a mutating operation to the control state. -/
def applyOp (op : MutOp) (h : HexEdit) : HexEdit :=
  match op with
  | .overwriteOp l c ch ok => (overwriteCell h l c ch ok).state
  | .insertOp l c ch ok => (insertCell h l c ch ok).state
  | .insertDataOp o d n ok => (insertData h o d n ok).2
  | .deleteDataOp o n => (deleteData h o n).2
  | .replaceDataOp o d n => (replaceData h o d n).2

/-- Validity of one operation in a state: cell edits address a cell whose
word starts at or before the end of valid data — the cursor-position
invariant the input dispatcher maintains (§3: cursor line stays within one
line of the populated lines). -/
def OpValid (op : MutOp) (h : HexEdit) : Prop :=
  match op with
  | .overwriteOp l c _ _ =>
    l * h.bytesPerLine + (cellType h l c).byteOffset ≤ h.bufferValid
  | .insertOp l c _ _ =>
    l * h.bytesPerLine + (cellType h l c).byteOffset ≤ h.bufferValid
  | .insertDataOp _ _ _ _ => True
  | .deleteDataOp _ _ => True
  | .replaceDataOp _ _ _ => True

instance (op : MutOp) (h : HexEdit) : Decidable (OpValid op h) := by
  unfold OpValid; rcases op <;> infer_instance

/-- Validity of a whole sequence of operations, each in the state the
previous ones produced. -/
def TraceValid : List MutOp → HexEdit → Prop
  | [], _ => True
  | op :: rest, h => OpValid op h ∧ TraceValid rest (applyOp op h)

instance instDecidableTraceValid :
    (ops : List MutOp) → (h : HexEdit) → Decidable (TraceValid ops h)
  | [], _ => .isTrue trivial
  | op :: rest, h =>
    @instDecidableAnd _ _ _ (instDecidableTraceValid rest (applyOp op h))

/-- Apply a sequence of mutating operations in order. -/
def applyOps (ops : List MutOp) (h : HexEdit) : HexEdit :=
  ops.foldl (fun h op => applyOp op h) h

/-- `h'` carries the same buffer, selection, configuration and caption as
`h`: the frame of the purely visual operations (cursor movement, dirty-range
bookkeeping, painting). -/
def SameData (h h' : HexEdit) : Prop :=
  h'.buffer = h.buffer ∧ h'.hasBuffer = h.hasBuffer ∧
    h'.bufferAllocated = h.bufferAllocated ∧ h'.bufferValid = h.bufferValid ∧
    h'.selectionActive = h.selectionActive ∧
    h'.selectionFirst = h.selectionFirst ∧ h'.selectionLast = h.selectionLast ∧
    h'.bytesPerLine = h.bytesPerLine ∧ h'.bytesPerWord = h.bytesPerWord ∧
    h'.offsetWidth = h.offsetWidth ∧ h'.caption = h.caption ∧
    h'.captionAllocated = h.captionAllocated

end HexEditModel

-- TEMP sanity checks (to be removed)
section TempChecks
open HexEditModel

example : cellFromHexBufferOffset (initState 1 0 80 24 []) 0 4 = (0, 0) := by decide
example : cellFromHexBufferOffset (initState 1 0 80 24 []) 0 0 = (0, 1) := by decide
example : cellFromHexBufferOffset (initState 1 0 80 24 []) 3 4 = (0, 9) := by decide
example : cellType (initState 1 0 80 24 []) 0 9 =
    ⟨CellKind.hexDigit, 3, 4, true⟩ := by decide
example : cellType (initState 1 0 80 24 []) 0 0 =
    ⟨CellKind.hexDigit, 0, 4, true⟩ := by decide
example : cellFromCharBufferOffset (initState 1 0 80 24 []) 5 = (0, 54) := by decide
example : cellType (initState 1 0 80 24 []) 0 54 =
    ⟨CellKind.charValue, 5, 0, true⟩ := by decide

-- spec scenario 7: overwrite '4','1' on an empty buffer
example :
    let s := initState 1 0 80 24 []
    let r1 := overwriteCell s 0 0 52 true
    let r2 := overwriteCell r1.state r1.lastLine r1.lastCharOffset 49 true
    r1.state.bufferValid = 1 ∧ r1.state.buffer 0 = 64 ∧
      r1.lastLine = 0 ∧ r1.lastCharOffset = 1 ∧
      r2.state.bufferValid = 1 ∧ r2.state.buffer 0 = 65 := by decide

-- spec scenario 8: insert '4','1' on an empty buffer inserts ONE byte
example :
    let s := { initState 1 0 80 24 [] with insertMode := true }
    let r1 := insertCell s 0 0 52 true
    let r2 := insertCell r1.state r1.lastLine r1.lastCharOffset 49 true
    r1.state.bufferValid = 1 ∧ r1.state.buffer 0 = 64 ∧
      r2.state.bufferValid = 1 ∧ r2.state.buffer 0 = 65 := by decide

-- spec scenario 9: char-region insert of 'A' at offset 3 of [0,1,2,3]
example :
    let s0 := initState 1 0 80 24 []
    let s := (setDataNoCopy s0 (fun i => if i < 4 then i else 0) 4 4).2
    let cell := cellFromCharBufferOffset s 3
    let r := insertCell s cell.1 cell.2 65 true
    r.state.bufferValid = 5 ∧ r.state.buffer 0 = 0 ∧ r.state.buffer 1 = 1 ∧
      r.state.buffer 2 = 2 ∧ r.state.buffer 3 = 65 ∧ r.state.buffer 4 = 3 := by
  decide
end TempChecks


namespace HexEditModel

/-! ## Arithmetic and frame helper lemmas -/

theorem two_pow_32_eq : (2 : Nat) ^ 32 = 4294967296 := by norm_num

theorem two_pow_64_eq : (2 : Nat) ^ 64 = 18446744073709551616 := by norm_num

theorem dword_eq_of_lt {n : Nat} (h : n < 2 ^ 32) : dword n = n :=
  Nat.mod_eq_of_lt h

theorem expandDirtyRange_eq (h : HexEdit) (a b : Nat) :
    expandDirtyRange h a b =
      { h with firstDirtyLine := min a h.firstDirtyLine,
               lastDirtyLine := max b h.lastDirtyLine } := by
  cases h
  unfold expandDirtyRange
  dsimp only
  split_ifs <;> simp_all <;> omega

theorem sameData_refl (h : HexEdit) : SameData h h := by
  unfold SameData
  exact ⟨rfl, rfl, rfl, rfl, rfl, rfl, rfl, rfl, rfl, rfl, rfl, rfl⟩

theorem sameData_trans {a b c : HexEdit} (h1 : SameData a b) (h2 : SameData b c) :
    SameData a c := by
  unfold SameData at *
  obtain ⟨e1, e2, e3, e4, e5, e6, e7, e8, e9, e10, e11, e12⟩ := h1
  obtain ⟨f1, f2, f3, f4, f5, f6, f7, f8, f9, f10, f11, f12⟩ := h2
  exact ⟨f1.trans e1, f2.trans e2, f3.trans e3, f4.trans e4, f5.trans e5,
    f6.trans e6, f7.trans e7, f8.trans e8, f9.trans e9, f10.trans e10,
    f11.trans e11, f12.trans e12⟩

theorem sameData_expandDirtyRange (h : HexEdit) (a b : Nat) :
    SameData h (expandDirtyRange h a b) := by
  rw [expandDirtyRange_eq]
  exact ⟨rfl, rfl, rfl, rfl, rfl, rfl, rfl, rfl, rfl, rfl, rfl, rfl⟩

theorem sameData_paintState (h : HexEdit) : SameData h (paintState h) := by
  unfold SameData paintState
  split_ifs <;> simp

theorem sameData_setCursorLocationInternal (h : HexEdit) (a b : Nat) :
    SameData h (setCursorLocationInternal h a b) := by
  unfold SameData setCursorLocationInternal
  split_ifs <;> simp

theorem sameData_update_viewportTop (h : HexEdit) (t : Nat) :
    SameData h { h with viewportTop := t } := by
  unfold SameData
  exact ⟨rfl, rfl, rfl, rfl, rfl, rfl, rfl, rfl, rfl, rfl, rfl, rfl⟩

theorem sameData_update_viewportLeft (h : HexEdit) (l : Nat) :
    SameData h { h with viewportLeft := l } := by
  unfold SameData
  exact ⟨rfl, rfl, rfl, rfl, rfl, rfl, rfl, rfl, rfl, rfl, rfl, rfl⟩

theorem sameData_ensureCursorVisible (h : HexEdit) :
    SameData h (ensureCursorVisible h) := by
  unfold SameData ensureCursorVisible
  simp only [expandDirtyRange_eq]
  split_ifs <;> simp

theorem sameData_setCursorToBufferLocation (h : HexEdit) (k : CellKind)
    (o s : Nat) : SameData h (setCursorToBufferLocation h k o s).2 := by
  unfold setCursorToBufferLocation
  dsimp only
  split_ifs <;> dsimp only <;>
    first
      | exact sameData_refl h
      | exact sameData_trans
          (sameData_trans (sameData_setCursorLocationInternal h _ _)
            (sameData_ensureCursorVisible _))
          (sameData_paintState _)

theorem sameData_setCursorLocationToZero (h : HexEdit) :
    SameData h (setCursorLocationToZero h).2 := by
  unfold setCursorLocationToZero
  exact sameData_setCursorToBufferLocation h _ _ _

end HexEditModel

namespace HexEditModel

theorem sameData_clearCtrl (h : HexEdit) :
    SameData
      { h with buffer := fun _ => 0, hasBuffer := false,
               bufferAllocated := 0, bufferValid := 0,
               viewportTop := 0, viewportLeft := 0 }
      (clearCtrl h).2 := by
  unfold clearCtrl
  dsimp only
  exact sameData_trans
    (sameData_trans (sameData_expandDirtyRange _ _ _)
      (sameData_setCursorLocationToZero _))
    (sameData_paintState _)

theorem sameData_initState (bpw ow cx cy : Nat) (cap : List Nat) :
    SameData
      { buffer := fun _ => 0, hasBuffer := false, bufferAllocated := 0,
        bufferValid := 0, bytesPerLine := YORI_LIB_HEXDUMP_BYTES_PER_LINE,
        bytesPerWord := bpw, offsetWidth := ow, selectionActive := false,
        selectionFirst := 0, selectionLast := 0, firstDirtyLine := 0,
        lastDirtyLine := 0, cursorLine := 0, cursorOffset := 0,
        viewportTop := 0, viewportLeft := 0, clientSizeX := cx,
        clientSizeY := cy, userModified := false, insertMode := false,
        caption := cap, captionAllocated := cap.length }
      (initState bpw ow cx cy cap) := by
  unfold initState
  dsimp only
  exact sameData_trans
    (sameData_trans (sameData_setCursorLocationToZero _)
      (sameData_expandDirtyRange _ _ _))
    (sameData_paintState _)

/-! ## C10 — get-data-no-copy -/

/-- C10: `YoriWinHexEditGetDataNoCopy` always returns success and reports the
buffer's valid length (not its allocated capacity); on a control whose buffer
was never set, or was cleared, it reports success with a NULL buffer pointer
and length 0. -/
theorem hexedit_C10_getDataNoCopy :
    (∀ h : HexEdit,
      (getDataNoCopy h).1 = true ∧ (getDataNoCopy h).2.2 = h.bufferValid) ∧
    (∀ (bpw ow cx cy : Nat) (cap : List Nat),
      getDataNoCopy (initState bpw ow cx cy cap) = (true, none, 0)) ∧
    (∀ h : HexEdit, getDataNoCopy (clearCtrl h).2 = (true, none, 0)) := by
  refine ⟨fun h => ⟨rfl, rfl⟩, fun bpw ow cx cy cap => ?_, fun h => ?_⟩
  · obtain ⟨-, e2, -, e4, -⟩ := sameData_initState bpw ow cx cy cap
    unfold getDataNoCopy
    rw [e2, e4]
    simp
  · obtain ⟨-, e2, -, e4, -⟩ := sameData_clearCtrl h
    unfold getDataNoCopy
    rw [e2, e4]
    simp

/-! ## C3 — selection set-range rejection -/

/-- C3 failing input: on an empty control (`valid = 0`),
`YoriWinHexEditSetSelectionRange 0 0` returns failure but leaves the
selection marked ACTIVE (the code sets `Selection.Active` before validating
the bounds), with its stale byte range — contradicting the claim that a
rejected set-range leaves the selection inactive and unmutated. -/
theorem hexedit_C3_rejection_leaves_selection_active :
    (setSelectionRange (initState 1 0 80 24 []) 0 0).1 = false ∧
    (setSelectionRange (initState 1 0 80 24 []) 0 0).2.selectionActive = true := by
  decide

/-! ## C4 — selection validity invariant -/

/-- C4 failing input: a control with 4 valid bytes and active selection
`[1,2]`; `YoriWinHexEditClear` empties the buffer (`valid = 0`) yet leaves
the selection active with its old range, and `YoriWinHexEditDeleteData`
shrinking the buffer to 0 bytes does the same — contradicting the invariant
that a selection is inactive once the buffer is cleared or shrunk below its
range. -/
theorem hexedit_C4_clear_keeps_selection_active :
    (setSelectionRange
        ((setDataNoCopy (initState 1 0 80 24 []) (fun _ => 0) 4 4).2) 1 2).1 =
        true ∧
    ((setSelectionRange
        ((setDataNoCopy (initState 1 0 80 24 []) (fun _ => 0) 4 4).2) 1
        2).2).selectionActive = true ∧
    (clearCtrl ((setSelectionRange
        ((setDataNoCopy (initState 1 0 80 24 []) (fun _ => 0) 4 4).2) 1
        2).2)).2.selectionActive = true ∧
    (clearCtrl ((setSelectionRange
        ((setDataNoCopy (initState 1 0 80 24 []) (fun _ => 0) 4 4).2) 1
        2).2)).2.bufferValid = 0 ∧
    (deleteData ((setSelectionRange
        ((setDataNoCopy (initState 1 0 80 24 []) (fun _ => 0) 4 4).2) 1
        2).2) 0 4).2.selectionActive = true ∧
    (deleteData ((setSelectionRange
        ((setDataNoCopy (initState 1 0 80 24 []) (fun _ => 0) 4 4).2) 1
        2).2) 0 4).2.bufferValid = 0 := by
  decide

end HexEditModel

namespace HexEditModel

/-! ## C9 — allocation ceiling -/

/-- C9 counterexample: at `n = 2^64 - 1` the padded size `n + 16384` wraps
modulo 2^64 to 16383, so although the (true) padded size reaches the
`(DWORD)-1` ceiling, `YoriWinHexEditEnsureBufferLength` SUCCEEDS, installing
a 16383-byte allocation — the size computation does wrap for 64-bit `n`. -/
theorem hexedit_C9_counterexample :
    (ensureBufferLength (initState 1 0 80 24 []) (2 ^ 64 - 1) true).1 = true ∧
    (ensureBufferLength (initState 1 0 80 24 [])
        (2 ^ 64 - 1) true).2.bufferAllocated = 16383 ∧
    2 ^ 32 - 1 ≤ 2 ^ 64 - 1 + 16384 := by
  refine ⟨?_, ?_, by norm_num⟩ <;> decide

/-- C9 (amended): for every requested length `n` whose padded size
`n + 16384` does not wrap 64-bit arithmetic, if growth is actually required
(`allocated < n`) and the padded size reaches the `(DWORD)-1` ceiling, then
`YoriWinHexEditEnsureBufferLength` fails cleanly with all buffer state
unchanged; for `n ≥ 2^64 - 16384` the computation wraps modulo 2^64. -/
theorem hexedit_C9_ceiling (h : HexEdit) (n : Nat) (ok : Bool)
    (hva : h.bufferValid ≤ h.bufferAllocated)
    (hgrow : h.bufferAllocated < n)
    (hnowrap : n + 16384 < 2 ^ 64)
    (hcap : 2 ^ 32 - 1 ≤ n + 16384) :
    ensureBufferLength h n ok = (false, h) := by
  unfold ensureBufferLength
  rw [if_neg (by omega), if_neg (by omega)]
  dsimp only
  rw [if_pos]
  rw [Nat.mod_eq_of_lt hnowrap]
  unfold DWORD_MAX
  omega

/-- C9 witness. -/
theorem hexedit_C9_witness :
    ensureBufferLength (initState 1 0 80 24 []) (2 ^ 32) true =
      (false, initState 1 0 80 24 []) :=
  hexedit_C9_ceiling _ _ _ (by decide) (by decide) (by norm_num) (by norm_num)

/-! ## C5 — buffer growth policy -/

/-- C5: for a requested length `n` below the allocation ceiling,
`YoriWinHexEditEnsureBufferLength` is a no-op returning success when
`allocated ≥ n`; otherwise it grows the allocation to exactly `n + 16384`
bytes preserving the first `valid` bytes and the valid length, and it
returns failure exactly when allocation fails, leaving buffer contents,
allocated and valid lengths unchanged. -/
theorem hexedit_C5_ensureBufferLength (h : HexEdit) (n : Nat) (ok : Bool)
    (hva : h.bufferValid ≤ h.bufferAllocated)
    (hcap : n + 16384 < 2 ^ 32 - 1) :
    (h.bufferAllocated ≥ n → ensureBufferLength h n ok = (true, h)) ∧
    (h.bufferAllocated < n →
      (ok = true →
        (ensureBufferLength h n ok).1 = true ∧
        (ensureBufferLength h n ok).2.bufferAllocated = n + 16384 ∧
        (ensureBufferLength h n ok).2.bufferValid = h.bufferValid ∧
        ∀ i < h.bufferValid, (ensureBufferLength h n ok).2.buffer i = h.buffer i) ∧
      (ok = false → ensureBufferLength h n ok = (false, h))) := by
  constructor
  · intro hge
    unfold ensureBufferLength
    rw [if_pos hge]
  · intro hlt
    have hmod : (n + 16384) % 2 ^ 64 = n + 16384 :=
      Nat.mod_eq_of_lt (by rw [two_pow_64_eq]; rw [two_pow_32_eq] at hcap; omega)
    have hnocap : ¬ (n + 16384) % 2 ^ 64 ≥ DWORD_MAX := by
      rw [hmod]
      unfold DWORD_MAX
      omega
    constructor
    · intro hok
      subst hok
      unfold ensureBufferLength
      rw [if_neg (by omega), if_neg (by omega)]
      dsimp only
      rw [if_neg hnocap, if_pos rfl]
      refine ⟨rfl, hmod, rfl, fun i hi => ?_⟩
      dsimp only
      rw [if_pos hi]
    · intro hok
      subst hok
      unfold ensureBufferLength
      rw [if_neg (by omega), if_neg (by omega)]
      dsimp only
      rw [if_neg hnocap]
      rfl

/-- C5 witness: a control with 4 valid bytes in a 4-byte allocation, grown
to hold 10 bytes. -/
theorem hexedit_C5_witness :
    (4 ≥ 10 →
      ensureBufferLength ((setDataNoCopy (initState 1 0 80 24 [])
          (fun i => if i < 4 then i else 0) 4 4).2) 10 true =
        (true, (setDataNoCopy (initState 1 0 80 24 [])
          (fun i => if i < 4 then i else 0) 4 4).2)) ∧
    (4 < 10 →
      (true = true →
        (ensureBufferLength ((setDataNoCopy (initState 1 0 80 24 [])
            (fun i => if i < 4 then i else 0) 4 4).2) 10 true).1 = true ∧
        (ensureBufferLength ((setDataNoCopy (initState 1 0 80 24 [])
            (fun i => if i < 4 then i else 0) 4 4).2) 10
            true).2.bufferAllocated = 10 + 16384 ∧
        (ensureBufferLength ((setDataNoCopy (initState 1 0 80 24 [])
            (fun i => if i < 4 then i else 0) 4 4).2) 10
            true).2.bufferValid =
          ((setDataNoCopy (initState 1 0 80 24 [])
            (fun i => if i < 4 then i else 0) 4 4).2).bufferValid ∧
        ∀ i < ((setDataNoCopy (initState 1 0 80 24 [])
            (fun i => if i < 4 then i else 0) 4 4).2).bufferValid,
          (ensureBufferLength ((setDataNoCopy (initState 1 0 80 24 [])
              (fun i => if i < 4 then i else 0) 4 4).2) 10 true).2.buffer i =
            ((setDataNoCopy (initState 1 0 80 24 [])
              (fun i => if i < 4 then i else 0) 4 4).2).buffer i) ∧
      (true = false →
        ensureBufferLength ((setDataNoCopy (initState 1 0 80 24 [])
            (fun i => if i < 4 then i else 0) 4 4).2) 10 true =
          (false, (setDataNoCopy (initState 1 0 80 24 [])
            (fun i => if i < 4 then i else 0) 4 4).2))) := by
  have hva : ((setDataNoCopy (initState 1 0 80 24 [])
      (fun i => if i < 4 then i else 0) 4 4).2).bufferValid ≤
      ((setDataNoCopy (initState 1 0 80 24 [])
      (fun i => if i < 4 then i else 0) 4 4).2).bufferAllocated := by decide
  have h5 := hexedit_C5_ensureBufferLength
    ((setDataNoCopy (initState 1 0 80 24 [])
      (fun i => if i < 4 then i else 0) 4 4).2) 10 true hva (by norm_num)
  have e1 : ((setDataNoCopy (initState 1 0 80 24 [])
      (fun i => if i < 4 then i else 0) 4 4).2).bufferAllocated = 4 := by decide
  rw [e1] at h5
  exact h5

end HexEditModel

namespace HexEditModel

/-! ## Facts about `cellType` outputs -/

set_option maxHeartbeats 1000000 in
/-- Bounds on the outputs of `cellType`: a hex cell addresses a word-aligned
byte within its 16-byte line, with a bit shift inside the word; a char cell
addresses a byte within the line. -/
theorem cellType_bounds (h : HexEdit) (line col : Nat)
    (hbpl : h.bytesPerLine = 16)
    (hbpw : h.bytesPerWord = 1 ∨ h.bytesPerWord = 2 ∨ h.bytesPerWord = 4 ∨
      h.bytesPerWord = 8)
    {k : CellKind} {bo bs : Nat} {be : Bool}
    (hct : cellType h line col = ⟨k, bo, bs, be⟩) :
    (k = CellKind.hexDigit →
      bo + bs / 8 ≤ 15 ∧ bo ≤ 16 - h.bytesPerWord ∧
      bo % h.bytesPerWord = 0 ∧ bs ≤ 8 * h.bytesPerWord - 4) ∧
    (k = CellKind.charValue → bo ≤ 15 ∧ bs = 0) := by
  rcases hbpw with hb | hb | hb | hb <;>
    (rw [hb]
     unfold cellType getCellsPerWord at hct
     rw [hbpl, hb] at hct
     dsimp only at hct
     split_ifs at hct <;>
       (injection hct with h1 h2 h3 h4
        subst h1
        subst h2
        subst h3
        constructor <;> intro hk <;>
          first
            | exact absurd hk (by decide)
            | omega))

set_option maxHeartbeats 2000000 in
/-- When `cellType` reports a cell beyond the buffer end, the byte the cell
addresses lies at or past the valid length. -/
theorem cellType_beyond_ge (h : HexEdit) (line col : Nat)
    (hbpl : h.bytesPerLine = 16)
    (hbpw : h.bytesPerWord = 1 ∨ h.bytesPerWord = 2 ∨ h.bytesPerWord = 4 ∨
      h.bytesPerWord = 8)
    (hvb : h.bufferValid < 2 ^ 32)
    {k : CellKind} {bo bs : Nat} {be : Bool}
    (hct : cellType h line col = ⟨k, bo, bs, be⟩) (hbe : be = true) :
    h.bufferValid ≤ line * 16 + bo + bs / 8 := by
  rw [two_pow_32_eq] at hvb
  rcases hbpw with hb | hb | hb | hb <;>
    (unfold cellType getCellsPerWord linesPopulated at hct
     unfold dword sub64 at hct
     rw [hbpl, hb] at hct
     simp only [two_pow_32_eq, two_pow_64_eq] at hct
     split_ifs at hct <;>
       (injection hct with h1 h2 h3 h4
        subst h1
        subst h2
        subst h3
        subst h4
        first
          | exact Bool.noConfusion hbe
          | (simp only [Bool.or_eq_true, decide_eq_true_eq] at hbe
             rcases hbe with hbe | hbe <;> omega)))

set_option maxHeartbeats 2000000 in
/-- When `cellType` reports an editable cell inside the buffer, the byte the
cell addresses lies strictly inside the valid length. -/
theorem cellType_not_beyond_lt (h : HexEdit) (line col : Nat)
    (hbpl : h.bytesPerLine = 16)
    (hbpw : h.bytesPerWord = 1 ∨ h.bytesPerWord = 2 ∨ h.bytesPerWord = 4 ∨
      h.bytesPerWord = 8)
    (hvb : h.bufferValid < 2 ^ 32)
    {k : CellKind} {bo bs : Nat} {be : Bool}
    (hct : cellType h line col = ⟨k, bo, bs, be⟩) (hbe : be = false)
    (hk : k = CellKind.hexDigit ∨ k = CellKind.charValue) :
    line * 16 + bo + bs / 8 < h.bufferValid := by
  rw [two_pow_32_eq] at hvb
  rcases hbpw with hb | hb | hb | hb <;>
    (unfold cellType getCellsPerWord linesPopulated at hct
     unfold dword sub64 at hct
     rw [hbpl, hb] at hct
     simp only [two_pow_32_eq, two_pow_64_eq] at hct
     split_ifs at hct <;>
       (injection hct with h1 h2 h3 h4
        subst h1
        subst h2
        subst h3
        subst h4
        first
          | (rcases hk with hk | hk <;> exact absurd hk (by decide))
          | (simp only [Bool.or_eq_false_iff, decide_eq_false_iff_not] at hbe
             omega)))

end HexEditModel

namespace HexEditModel

/-! ## Behaviour of the buffer store when allocation fails -/

theorem ensureBufferLength_false (h : HexEdit) (n : Nat) :
    ensureBufferLength h n false =
      if n ≤ h.bufferAllocated then (true, h) else (false, h) := by
  unfold ensureBufferLength
  split_ifs <;> simp_all

theorem ensureBufferValid_false (h : HexEdit) (n : Nat)
    (hna : h.bufferAllocated < n) :
    ensureBufferValid h n false =
      if n ≤ h.bufferValid then (true, h) else (false, h) := by
  unfold ensureBufferValid
  rw [ensureBufferLength_false]
  split_ifs <;> simp_all <;> omega

theorem insertSpaceInBuffer_false (h : HexEdit) (off cnt : Nat)
    (hcnt : h.bufferAllocated < h.bufferValid + cnt) :
    insertSpaceInBuffer h off cnt false = (false, h) := by
  unfold insertSpaceInBuffer
  rw [ensureBufferLength_false]
  split_ifs <;> simp_all <;> omega

end HexEditModel

namespace HexEditModel

/-- C6 counterexample: on an empty control with every allocation failing,
an insert-mode hex edit and an overwrite-mode hex edit at cell (0,0) abort
but return TRUE — the claim expects a boolean failure to reach the caller. -/
theorem hexedit_C6_counterexample :
    (insertCell (initState 1 0 80 24 []) 0 0 52 false).ret = true ∧
    (overwriteCell (initState 1 0 80 24 []) 0 0 52 false).ret = true := by
  decide

set_option maxHeartbeats 2000000 in
/-- C6 (amended): when the underlying allocation fails, every operation
aborts with the buffer (or caption) left in its prior valid state;
`YoriWinHexEditSetCaption` returns failure, but the cell-edit operations
(`YoriWinHexEditOverwriteCell` at a beyond-end cell,
`YoriWinHexEditInsertCell` on a growth path) return SUCCESS with the cursor
unchanged — the allocation failure is not propagated to their caller. -/
theorem hexedit_C6_alloc_failure (h : HexEdit) (line col ch : Nat) (cap : List Nat)
    (hwf : Wf h) (hfull : h.bufferAllocated ≤ h.bufferValid) :
    (∀ {k : CellKind} {bo bs : Nat},
      cellType h line col = ⟨k, bo, bs, true⟩ →
      overwriteCell h line col ch false = ⟨h, line, col, true⟩) ∧
    (∀ {k : CellKind} {bo bs : Nat} {be : Bool},
      cellType h line col = ⟨k, bo, bs, be⟩ →
      (k = CellKind.charValue ∨
        (k = CellKind.hexDigit ∧ bs = h.bytesPerWord * 8 - 4)) →
      SameData h (insertCell h line col ch false).state ∧
      (insertCell h line col ch false).ret = true ∧
      (insertCell h line col ch false).lastLine = line ∧
      (insertCell h line col ch false).lastCharOffset = col) ∧
    (h.captionAllocated < cap.length → setCaption h cap false = (false, h)) := by
  obtain ⟨hbpl, hbpw, hva, hcap⟩ := hwf
  have hbpw1 : 0 < h.bytesPerWord := by rcases hbpw with hb | hb | hb | hb <;> omega
  have hvb : h.bufferValid < 2 ^ 32 := by omega
  refine ⟨?_, ?_, ?_⟩
  · intro k bo bs hct
    have hge := cellType_beyond_ge h line col hbpl hbpw hvb hct rfl
    unfold overwriteCell
    rw [hct, hbpl]
    dsimp only
    have hn : h.bufferAllocated <
        (if bs ≥ 8 then line * 16 + bo + bs / 8 else line * 16 + bo) + 1 := by
      split_ifs <;> omega
    have hno : ¬ ((if bs ≥ 8 then line * 16 + bo + bs / 8 else line * 16 + bo) + 1 ≤
        h.bufferValid) := by
      split_ifs at hn ⊢ <;> omega
    rcases k with _ | _ | _ | _
    · rfl
    · rfl
    · rcases hdv : hexDigitValue (upcaseChar (inputCharToByte ch)) with _ | nib
      · rfl
      · dsimp only
        rw [ensureBufferValid_false h _ hn, if_neg hno]
        rfl
    · dsimp only
      rw [ensureBufferValid_false h _ hn, if_neg hno]
      rfl
  · intro k bo bs be hct hkind
    have heq : ∃ d, insertCell h line col ch false =
          ⟨expandDirtyRange h line d, line, col, true⟩ ∨
        insertCell h line col ch false = ⟨h, line, col, true⟩ := by
      unfold insertCell
      rw [hct, hbpl]
      dsimp only
      by_cases hbe : be = true
      · rw [if_pos hbe]
        by_cases hgt : line * 16 + bo > h.bufferValid
        · rw [if_pos hgt]
          rw [ensureBufferValid_false h _ (by omega),
            if_neg (show ¬(line * 16 + bo ≤ h.bufferValid) by omega)]
          dsimp only
          exact ⟨0, Or.inr rfl⟩
        · rw [if_neg hgt]
          dsimp only
          rcases hkind with hk | ⟨hk, hbs⟩ <;> subst hk
          · dsimp only
            rw [insertSpaceInBuffer_false h _ _ (by omega)]
            dsimp only
            exact ⟨DWORD_MAX, Or.inl rfl⟩
          · dsimp only
            rcases hdv : hexDigitValue (upcaseChar (inputCharToByte ch)) with _ | nib
            · dsimp only
              exact ⟨DWORD_MAX, Or.inl rfl⟩
            · dsimp only
              rw [if_pos hbs]
              rw [insertSpaceInBuffer_false h _ _ (by omega)]
              dsimp only
              exact ⟨DWORD_MAX, Or.inl rfl⟩
      · rw [if_neg hbe]
        dsimp only
        rcases hkind with hk | ⟨hk, hbs⟩ <;> subst hk
        · dsimp only
          rw [insertSpaceInBuffer_false h _ _ (by omega)]
          dsimp only
          exact ⟨line, Or.inl rfl⟩
        · dsimp only
          rcases hdv : hexDigitValue (upcaseChar (inputCharToByte ch)) with _ | nib
          · dsimp only
            exact ⟨line, Or.inl rfl⟩
          · dsimp only
            rw [if_pos hbs]
            rw [insertSpaceInBuffer_false h _ _ (by omega)]
            dsimp only
            exact ⟨line, Or.inl rfl⟩
    obtain ⟨d, hd | hd⟩ := heq <;> rw [hd]
    · exact ⟨sameData_expandDirtyRange h line d, rfl, rfl, rfl⟩
    · exact ⟨sameData_refl h, rfl, rfl, rfl⟩
  · intro hlen
    unfold setCaption
    rw [if_pos hlen]
    rfl

end HexEditModel

namespace HexEditModel

/-- C6 witness. -/
theorem hexedit_C6_witness :
    overwriteCell (initState 1 0 80 24 []) 0 0 52 false =
      ⟨initState 1 0 80 24 [], 0, 0, true⟩ ∧
    (insertCell (initState 1 0 80 24 []) 0 0 52 false).ret = true ∧
    setCaption (initState 1 0 80 24 []) [65] false =
      (false, initState 1 0 80 24 []) := by
  obtain ⟨h1, h2, h3⟩ := hexedit_C6_alloc_failure (initState 1 0 80 24 [])
    0 0 52 [65] (by decide) (by decide)
  exact ⟨@h1 CellKind.hexDigit 0 4 (by decide),
    (@h2 CellKind.hexDigit 0 4 true (by decide)
      (Or.inr ⟨rfl, by decide⟩)).2.1,
    h3 (by decide)⟩

end HexEditModel

namespace HexEditModel

/-- `YoriWinHexEditInsertSpaceInBuffer` succeeds for an offset within valid
data when the padded growth stays below the ceiling, adding `cnt` valid
bytes. -/
theorem insertSpaceInBuffer_true_valid (h : HexEdit) (off cnt : Nat)
    (hoff : off ≤ h.bufferValid) (hva : h.bufferValid ≤ h.bufferAllocated)
    (hroom : h.bufferValid + cnt + 16384 < 2 ^ 32 - 1) :
    (insertSpaceInBuffer h off cnt true).1 = true ∧
    (insertSpaceInBuffer h off cnt true).2.bufferValid = h.bufferValid + cnt := by
  unfold insertSpaceInBuffer
  rw [if_neg (by omega)]
  dsimp only
  have hens : ∃ h1, ensureBufferLength h (h.bufferValid + cnt) true = (true, h1) ∧
      h1.bufferValid = h.bufferValid := by
    unfold ensureBufferLength
    by_cases hge : h.bufferAllocated ≥ h.bufferValid + cnt
    · rw [if_pos hge]
      exact ⟨h, rfl, rfl⟩
    · rw [if_neg hge, if_neg (by omega)]
      dsimp only
      rw [if_neg (show ¬((h.bufferValid + cnt + 16384) % 2 ^ 64 ≥ DWORD_MAX) by
            rw [Nat.mod_eq_of_lt (by omega)]
            unfold DWORD_MAX
            omega),
        if_pos rfl]
      exact ⟨_, rfl, rfl⟩
  obtain ⟨h1, he, hv⟩ := hens
  rw [he]
  dsimp only
  rw [hv]
  rw [if_neg (show ¬(h.bufferValid - off > DWORD_MAX) by unfold DWORD_MAX; omega)]
  exact ⟨rfl, rfl⟩

/-- C7 counterexample: on an empty control (`valid = 0`),
`YoriWinHexEditInsertData` at offset `0 = valid` (insertion at the end of
valid data) returns failure — the claim says insert succeeds for every
`0 ≤ offset ≤ valid`. -/
theorem hexedit_C7_counterexample :
    (insertData (initState 1 0 80 24 []) 0 (fun _ => 65) 1 true).1 = false ∧
    (initState 1 0 80 24 []).bufferValid = 0 := by
  decide

/-- C7 (amended): `YoriWinHexEditReplaceData` compares the wrapping 64-bit
sum `offset + length` against the valid length — it fails with the buffer
unchanged exactly when the wrapped sum exceeds valid (so a sum wrapping past
`2 ^ 64` is accepted and reported as success), and it never changes the
valid length.  `YoriWinHexEditInsertData` and `YoriWinHexEditDeleteData`
require `offset` strictly inside valid data (both fail, state unchanged, at
`offset ≥ valid`, including at the end); for `offset < valid`, insert under
successful allocation below the ceiling adds exactly `length mod 2 ^ 32`
bytes (the count is truncated to 32 bits), and delete clamps its count to
the valid range whenever `offset + length` does not wrap. -/
theorem hexedit_C7_data_api (h : HexEdit) (off len : Nat) (data : Nat → Nat)
    (hwf : Wf h)
    (hroom : h.bufferValid + dword len + 16384 < 2 ^ 32 - 1) :
    (qword (off + len) > h.bufferValid → replaceData h off data len = (false, h)) ∧
    (qword (off + len) ≤ h.bufferValid → (replaceData h off data len).1 = true) ∧
    ((replaceData h off data len).2.bufferValid = h.bufferValid) ∧
    (off ≥ h.bufferValid → insertData h off data len true = (false, h)) ∧
    (off < h.bufferValid →
      (insertData h off data len true).1 = true ∧
      (insertData h off data len true).2.bufferValid =
        h.bufferValid + dword len) ∧
    (off ≥ h.bufferValid → deleteData h off len = (false, h)) ∧
    (off < h.bufferValid → off + len < 2 ^ 64 →
      (deleteData h off len).1 = true ∧
      (deleteData h off len).2.bufferValid =
        h.bufferValid - min len (h.bufferValid - off)) := by
  obtain ⟨hbpl, hbpw, hva, hcap⟩ := hwf
  refine ⟨?_, ?_, ?_, ?_, ?_, ?_, ?_⟩
  · intro hgt
    unfold replaceData
    rw [if_pos hgt]
  · intro hle
    unfold replaceData
    rw [if_neg (by omega)]
  · unfold replaceData
    split_ifs
    · rfl
    · simp only [expandDirtyRange_eq]
  · intro hge
    unfold insertData
    rw [if_pos hge]
  · intro hlt
    have hins := insertSpaceInBuffer_true_valid h off (dword len) (by omega)
      hva hroom
    unfold insertData
    rw [if_neg (by omega)]
    dsimp only
    rw [if_pos hins.1]
    refine ⟨rfl, ?_⟩
    simp only [expandDirtyRange_eq]
    rw [hins.2]
  · intro hge
    unfold deleteData
    rw [if_pos hge]
  · intro hlt hnw
    unfold deleteData
    rw [if_neg (by omega)]
    dsimp only
    refine ⟨rfl, ?_⟩
    simp only [expandDirtyRange_eq]
    unfold qword sub64
    split_ifs <;> (first | omega | (dsimp only; omega))

end HexEditModel

namespace HexEditModel

/-- C7 witness: a 4-byte buffer, offset 2, length 8. -/
theorem hexedit_C7_witness :
    ((qword (2 + 8) > 4 →
      replaceData ((setDataNoCopy (initState 1 0 80 24 [])
          (fun i => if i < 4 then i else 0) 4 4).2) 2 (fun _ => 9) 8 =
        (false, (setDataNoCopy (initState 1 0 80 24 [])
          (fun i => if i < 4 then i else 0) 4 4).2)) ∧
    (qword (2 + 8) ≤ 4 →
      (replaceData ((setDataNoCopy (initState 1 0 80 24 [])
          (fun i => if i < 4 then i else 0) 4 4).2) 2
          (fun _ => 9) 8).1 = true) ∧
    ((replaceData ((setDataNoCopy (initState 1 0 80 24 [])
          (fun i => if i < 4 then i else 0) 4 4).2) 2
          (fun _ => 9) 8).2.bufferValid = 4) ∧
    (2 ≥ 4 →
      insertData ((setDataNoCopy (initState 1 0 80 24 [])
          (fun i => if i < 4 then i else 0) 4 4).2) 2 (fun _ => 9) 8 true =
        (false, (setDataNoCopy (initState 1 0 80 24 [])
          (fun i => if i < 4 then i else 0) 4 4).2)) ∧
    (2 < 4 →
      (insertData ((setDataNoCopy (initState 1 0 80 24 [])
          (fun i => if i < 4 then i else 0) 4 4).2) 2
          (fun _ => 9) 8 true).1 = true ∧
      (insertData ((setDataNoCopy (initState 1 0 80 24 [])
          (fun i => if i < 4 then i else 0) 4 4).2) 2
          (fun _ => 9) 8 true).2.bufferValid = 4 + dword 8) ∧
    (2 ≥ 4 →
      deleteData ((setDataNoCopy (initState 1 0 80 24 [])
          (fun i => if i < 4 then i else 0) 4 4).2) 2 8 =
        (false, (setDataNoCopy (initState 1 0 80 24 [])
          (fun i => if i < 4 then i else 0) 4 4).2)) ∧
    (2 < 4 → 2 + 8 < 2 ^ 64 →
      (deleteData ((setDataNoCopy (initState 1 0 80 24 [])
          (fun i => if i < 4 then i else 0) 4 4).2) 2 8).1 = true ∧
      (deleteData ((setDataNoCopy (initState 1 0 80 24 [])
          (fun i => if i < 4 then i else 0) 4 4).2) 2 8).2.bufferValid =
        4 - min 8 (4 - 2))) := by
  have h7 := hexedit_C7_data_api ((setDataNoCopy (initState 1 0 80 24 [])
      (fun i => if i < 4 then i else 0) 4 4).2) 2 8 (fun _ => 9)
    (by constructor
        · decide
        · exact ⟨by decide, by decide, by decide⟩)
    (by decide)
  have e4 : ((setDataNoCopy (initState 1 0 80 24 [])
      (fun i => if i < 4 then i else 0) 4 4).2).bufferValid = 4 := by decide
  rw [e4] at h7
  exact h7

end HexEditModel
